import Mathlib

/-!
Verification of the GTA text-editing tool's codec layer.

Shallow embedding of the Python sources:
  * `GTA4_WHM_Text_Extractor.py` — FNV-1a/32, the ledger merge (`LoadText`),
    the tagged-pointer arena (`pgPtr.locate`, `pgObjectArray.get_span`),
    the resource-flag size formulas (`rsc_flag`), the HTML string walker
    (`ExtractNodeStrings` / `TryAppendString`) and the translation-database
    codec (`GenerateDataBase` / `ParseWhmTable`).
  * `SAGXT.py` — JAMCRC key hashing, text-ledger loading (`load_text`) and
    the GXT encoder's TKEY ordering (`save_as_gxt`).

Bytes and text code points are modelled as `Nat` lists; 32-bit machine
arithmetic is explicit (`&&& 0xFFFFFFFF` / `% 2^32`); fallible operations
return `Option`.
-/

namespace GTAText

/-! ### FNV-1a/32 (`fnv1a_32`, GTA4_WHM_Text_Extractor.py:14-19) -/

def FNV_PRIME_32 : Nat := 0x01000193

def FNV_OFFSET_BASIS_32 : Nat := 0x811C9DC5

/-- `fnv1a_32`: fold `h = ((h XOR byte) * prime) AND 0xFFFFFFFF` over the bytes,
starting from the offset basis. -/
def fnv1a_32 (data : List Nat) : Nat :=
  data.foldl (fun hv b => ((hv ^^^ b) * FNV_PRIME_32) &&& 0xFFFFFFFF) FNV_OFFSET_BASIS_32

/-! ### windows-1252 encoding

`LoadText` re-encodes each parsed translation with `str.encode('windows-1252')`.
That codec maps code points below 0x80 and in 0xA0–0xFF to themselves, maps the
27 extra characters of the 0x80–0x9F block per the cp1252 table, and fails
(raises `UnicodeEncodeError`) on everything else. -/

def encodeW1252Char (c : Nat) : Option Nat :=
  if c < 0x80 then some c
  else if 0xA0 ≤ c ∧ c ≤ 0xFF then some c
  else match c with
  | 0x20AC => some 0x80
  | 0x201A => some 0x82
  | 0x0192 => some 0x83
  | 0x201E => some 0x84
  | 0x2026 => some 0x85
  | 0x2020 => some 0x86
  | 0x2021 => some 0x87
  | 0x02C6 => some 0x88
  | 0x2030 => some 0x89
  | 0x0160 => some 0x8A
  | 0x2039 => some 0x8B
  | 0x0152 => some 0x8C
  | 0x017D => some 0x8E
  | 0x2018 => some 0x91
  | 0x2019 => some 0x92
  | 0x201C => some 0x93
  | 0x201D => some 0x94
  | 0x2022 => some 0x95
  | 0x2013 => some 0x96
  | 0x2014 => some 0x97
  | 0x02DC => some 0x98
  | 0x2122 => some 0x99
  | 0x0161 => some 0x9A
  | 0x203A => some 0x9B
  | 0x0153 => some 0x9C
  | 0x017E => some 0x9E
  | 0x0178 => some 0x9F
  | _ => none

/-- `text_str.encode('windows-1252')`: encode every code point or fail. -/
def encodeW1252 : List Nat → Option (List Nat)
  | [] => some []
  | c :: cs => do
    let b ← encodeW1252Char c
    let bs ← encodeW1252 cs
    pure (b :: bs)

/-! ### Ledger merge (`CHtmlTextExport.LoadText`, GTA4_WHM_Text_Extractor.py:619-654) -/

/-- `IsBlankText`: every character is a space or a tab (vacuously true of `""`). -/
def IsBlankText (text : List Nat) : Bool :=
  text.all (fun c => c = 32 || c = 9)

/-- Lines 641-644 of `LoadText`: encode to windows-1252; on
`UnicodeEncodeError` fall back to the empty byte string. -/
def loadTextBytes (t : List Nat) : List Nat :=
  (encodeW1252 t).getD []

/-- Line 646 of `LoadText`: the filter deciding whether a parsed `(hash, text)`
entry enters the rebuilt table. -/
def acceptEntry (hv : Nat) (t : List Nat) : Bool :=
  !IsBlankText t && hv != fnv1a_32 (loadTextBytes t)

/-- `LoadText` restricted to its per-line merge decision: the parsed
`(hash, text)` lines that survive the filter, in order. -/
def LoadText (entries : List (Nat × List Nat)) : List (Nat × List Nat) :=
  entries.filter (fun e => acceptEntry e.1 e.2)

/-! ### Tagged pointers (`pgPtr`, GTA4_WHM_Text_Extractor.py:94-130) -/

/-- `pgPtr.o`: the low 28 bits of the stored 32-bit value. -/
def ptrOffset (v : Nat) : Nat := v &&& 0x0FFFFFFF

/-- `pgPtr.t`: the top 4 bits of the stored 32-bit value. -/
def ptrTag (v : Nat) : Nat := (v >>> 28) &&& 0xF

/-- The null-terminator scan of `pgPtr.locate` for `c_char`
(lines 115-125): bytes before the first null, or `none` if no null follows. -/
def scanCString : List Nat → Option (List Nat)
  | [] => none
  | b :: bs => if b = 0 then some [] else (scanCString bs).map (fun r => b :: r)

/-- `pgPtr.locate(block, c_char)`: `none` for an empty arena, a tag other than
`Cpu_Type (= 5)`, or an offset at/past the arena length; otherwise the
null-terminator scan from the offset. -/
def locateChar (block : List Nat) (v : Nat) : Option (List Nat) :=
  if block.isEmpty ∨ ptrTag v ≠ 5 then none
  else if block.length ≤ ptrOffset v then none
  else scanCString (block.drop (ptrOffset v))

/-! ### Resource flags (`rsc_flag`, GTA4_WHM_Text_Extractor.py:31-81)

The ctypes bitfield packs, low bit first: four 1-bit virtual page flags,
a 7-bit virtual page count, a 4-bit virtual page-size exponent, then the
same five physical fields, then 2 unused bits. -/

def bitsAt (v lo width : Nat) : Nat := (v >>> lo) &&& (2 ^ width - 1)

def virtual1xPageFlag (v : Nat) : Nat := bitsAt v 0 1
def virtual2xPageFlag (v : Nat) : Nat := bitsAt v 1 1
def virtual4xPageFlag (v : Nat) : Nat := bitsAt v 2 1
def virtual8xPageFlag (v : Nat) : Nat := bitsAt v 3 1
def virtual16xPageCount (v : Nat) : Nat := bitsAt v 4 7
def virtual1xPageSize (v : Nat) : Nat := bitsAt v 11 4
def physical1xPageFlag (v : Nat) : Nat := bitsAt v 15 1
def physical2xPageFlag (v : Nat) : Nat := bitsAt v 16 1
def physical4xPageFlag (v : Nat) : Nat := bitsAt v 17 1
def physical8xPageFlag (v : Nat) : Nat := bitsAt v 18 1
def physical16xPageCount (v : Nat) : Nat := bitsAt v 19 7
def physical1xPageSize (v : Nat) : Nat := bitsAt v 26 4

/-- `rsc_flag.GetVirtualPageSize`. -/
def GetVirtualPageSize (v : Nat) : Nat := 1 <<< (virtual1xPageSize v + 8)

/-- `rsc_flag.GetPhysicalPageSize`. -/
def GetPhysicalPageSize (v : Nat) : Nat := 1 <<< (physical1xPageSize v + 8)

/-- `rsc_flag.GetVirtualSize`. -/
def GetVirtualSize (v : Nat) : Nat :=
  GetVirtualPageSize v *
    (virtual1xPageFlag v * 1 + virtual2xPageFlag v * 2 + virtual4xPageFlag v * 4 +
      virtual8xPageFlag v * 8 + virtual16xPageCount v * 16)

/-- `rsc_flag.GetPhysicalSize`. -/
def GetPhysicalSize (v : Nat) : Nat :=
  GetPhysicalPageSize v *
    (physical1xPageFlag v * 1 + physical2xPageFlag v * 2 + physical4xPageFlag v * 4 +
      physical8xPageFlag v * 8 + physical16xPageCount v * 16)

/-- `UnpackWhm` line 679: expected decompressed size. -/
def uncompressedSize (v : Nat) : Nat := GetVirtualSize v + GetPhysicalSize v

/-! ### String filter (`CHtmlTextExport.TryAppendString`, GTA4_WHM_Text_Extractor.py:746-798) -/

def validate_digit_char (c : Nat) : Bool := decide (48 ≤ c) && decide (c ≤ 57)

def validate_english_char (c : Nat) : Bool :=
  (decide (97 ≤ c) && decide (c ≤ 122)) || (decide (65 ≤ c) && decide (c ≤ 90))

def validate_efigs_char (c : Nat) : Bool := validate_english_char c || decide (0xC0 ≤ c)

def validate_url_char (c : Nat) : Bool :=
  validate_english_char c || validate_digit_char c ||
    c == 46 || c == 37 || c == 64 || c == 45 || c == 95

/-- `bytes.find(b'.')` scan: index of the first 46 at or after position `i`. -/
def findDotAux : List Nat → Nat → Option Nat
  | [], _ => none
  | b :: bs, i => if b = 46 then some i else findDotAux bs (i + 1)

/-- `view.find(b'.')`, with `-1` rendered as `none`. -/
def findDot (v : List Nat) : Option Nat := findDotAux v 0

/-- `view.rfind(b'.')`, with `-1` rendered as `none`: the index of the last
dot, computed from the first dot of the reversed list. -/
def rfindDot (v : List Nat) : Option Nat :=
  (findDotAux v.reverse 0).map (fun i => v.length - 1 - i)

/-- `validate_url` (lines 766-782): nonempty, every byte a URL character, a
dot exists, the first dot is not at index 0 and the last dot is not at the
final index. -/
def validate_url (v : List Nat) : Bool :=
  if v.isEmpty then false
  else if !(v.all validate_url_char) then false
  else match findDot v, rfindDot v with
    | some f, some l => f != 0 && l != v.length - 1
    | _, _ => false

/-- `validate_string` (lines 784-789): has an EFIGS byte and is not a URL. -/
def validate_string (v : List Nat) : Bool :=
  v.any validate_efigs_char && !(validate_url v)

/-- `TryAppendString` acting on the `(container, hashes)` state (lines
791-798): empty or rejected strings leave the state unchanged; an accepted
string is appended (with its FNV-1a/32 hash) unless the hash is already in
the dedup set. -/
def TryAppendString (st : List (Nat × List Nat) × List Nat) (ptr : List Nat) :
    List (Nat × List Nat) × List Nat :=
  if ptr.isEmpty then st
  else if validate_string ptr then
    if fnv1a_32 ptr ∈ st.2 then st
    else (st.1 ++ [(fnv1a_32 ptr, ptr)], st.2 ++ [fnv1a_32 ptr])
  else st

/-- The URL classifier as the claim words it (for comparison with the
source's `validate_url`): every byte is a URL character and some dot occurs
at a position that is neither the first nor the last index. -/
def specURL (v : List Nat) : Bool :=
  v.all validate_url_char &&
    (List.range v.length).any (fun i => v.getD i 0 == 46 && i != 0 && i != v.length - 1)

/-! ### Array spans (`pgObjectArray.get_span`, GTA4_WHM_Text_Extractor.py:152-175) -/

/-- `pgObjectArray.get_span`: the list of element byte offsets read from the
arena, paired with whether the out-of-bounds diagnostic fired. The nominal
element count is `max count size`; if reading that many would overrun the
arena the count is re-tried as the declared `count`; if that still overruns,
nothing is read and the diagnostic is printed. -/
def get_span (blockLen ptrVal count size esz : Nat) : List Nat × Bool :=
  if blockLen = 0 ∨ ptrTag ptrVal ≠ 5 then ([], false)
  else if blockLen < ptrOffset ptrVal + max count size * esz then
    if blockLen < ptrOffset ptrVal + count * esz then ([], true)
    else ((List.range count).map (fun i => ptrOffset ptrVal + i * esz), false)
  else ((List.range (max count size)).map (fun i => ptrOffset ptrVal + i * esz), false)

/-! ### HTML node walk (`ExtractNodeStrings`, GTA4_WHM_Text_Extractor.py:706-744)

The walk reads each node out of the arena; here a node of the recovered tree
carries its stored node-kind tag, the child nodes the `m_children` span
resolves, and — when its bytes are reinterpreted as `CHtmlDataNode` — the
bytes its `m_pData` pointer locates (`none` when the pointer fails to
dereference). -/

inductive HNode where
  | mk (kind : Nat) (children : List HNode) (data : Option (List Nat))

def HNode.kind : HNode → Nat
  | .mk k _ _ => k

mutual

/-- `ExtractNodeStrings`: the state is the `(container, hashes)` pair threaded
through `TryAppendString` plus the number of unknown-node-kind diagnostics
printed. Recurse into the children first (lines 712-716),
then dispatch on the node kind (lines 718-744): a `Node_HtmlDataNode` (tag 1)
offers its located text to `TryAppendString`; tags 0, 2, 3 carry no text; any
other tag prints the unknown-node-kind warning and returns. -/
def ExtractNodeStrings (st : (List (Nat × List Nat) × List Nat) × Nat) :
    HNode → (List (Nat × List Nat) × List Nat) × Nat
  | .mk kind children data =>
    let st1 := ExtractChildren st children
    if kind = 1 then
      match data with
      | some bs => (TryAppendString st1.1 bs, st1.2)
      | none => st1
    else if kind = 0 ∨ kind = 2 ∨ kind = 3 then st1
    else (st1.1, st1.2 + 1)

/-- The `for element_ptr in node.m_children...` loop of lines 712-716. -/
def ExtractChildren (st : (List (Nat × List Nat) × List Nat) × Nat) :
    List HNode → (List (Nat × List Nat) × List Nat) × Nat
  | [] => st
  | c :: cs => ExtractChildren (ExtractNodeStrings st c) cs

end

/-! ### San Andreas GXT (`SAGXT.py`) -/

/-- The JAMCRC table of SAGXT.py:7-40 (polynomial 0xEDB88320). -/
def CRC32_TABLE : List Nat := [
  0x00000000, 0x77073096, 0xEE0E612C, 0x990951BA, 0x076DC419, 0x706AF48F, 0xE963A535, 0x9E6495A3,
  0x0EDB8832, 0x79DCB8A4, 0xE0D5E91E, 0x97D2D988, 0x09B64C2B, 0x7EB17CBD, 0xE7B82D07, 0x90BF1D91,
  0x1DB71064, 0x6AB020F2, 0xF3B97148, 0x84BE41DE, 0x1ADAD47D, 0x6DDDE4EB, 0xF4D4B551, 0x83D385C7,
  0x136C9856, 0x646BA8C0, 0xFD62F97A, 0x8A65C9EC, 0x14015C4F, 0x63066CD9, 0xFA0F3D63, 0x8D080DF5,
  0x3B6E20C8, 0x4C69105E, 0xD56041E4, 0xA2677172, 0x3C03E4D1, 0x4B04D447, 0xD20D85FD, 0xA50AB56B,
  0x35B5A8FA, 0x42B2986C, 0xDBBBC9D6, 0xACBCF940, 0x32D86CE3, 0x45DF5C75, 0xDCD60DCF, 0xABD13D59,
  0x26D930AC, 0x51DE003A, 0xC8D75180, 0xBFD06116, 0x21B4F4B5, 0x56B3C423, 0xCFBA9599, 0xB8BDA50F,
  0x2802B89E, 0x5F058808, 0xC60CD9B2, 0xB10BE924, 0x2F6F7C87, 0x58684C11, 0xC1611DAB, 0xB6662D3D,
  0x76DC4190, 0x01DB7106, 0x98D220BC, 0xEFD5102A, 0x71B18589, 0x06B6B51F, 0x9FBFE4A5, 0xE8B8D433,
  0x7807C9A2, 0x0F00F934, 0x9609A88E, 0xE10E9818, 0x7F6A0DBB, 0x086D3D2D, 0x91646C97, 0xE6635C01,
  0x6B6B51F4, 0x1C6C6162, 0x856530D8, 0xF262004E, 0x6C0695ED, 0x1B01A57B, 0x8208F4C1, 0xF50FC457,
  0x65B0D9C6, 0x12B7E950, 0x8BBEB8EA, 0xFCB9887C, 0x62DD1DDF, 0x15DA2D49, 0x8CD37CF3, 0xFBD44C65,
  0x4DB26158, 0x3AB551CE, 0xA3BC0074, 0xD4BB30E2, 0x4ADFA541, 0x3DD895D7, 0xA4D1C46D, 0xD3D6F4FB,
  0x4369E96A, 0x346ED9FC, 0xAD678846, 0xDA60B8D0, 0x44042D73, 0x33031DE5, 0xAA0A4C5F, 0xDD0D7CC9,
  0x5005713C, 0x270241AA, 0xBE0B1010, 0xC90C2086, 0x5768B525, 0x206F85B3, 0xB966D409, 0xCE61E49F,
  0x5EDEF90E, 0x29D9C998, 0xB0D09822, 0xC7D7A8B4, 0x59B33D17, 0x2EB40D81, 0xB7BD5C3B, 0xC0BA6CAD,
  0xEDB88320, 0x9ABFB3B6, 0x03B6E20C, 0x74B1D29A, 0xEAD54739, 0x9DD277AF, 0x04DB2615, 0x73DC1683,
  0xE3630B12, 0x94643B84, 0x0D6D6A3E, 0x7A6A5AA8, 0xE40ECF0B, 0x9309FF9D, 0x0A00AE27, 0x7D079EB1,
  0xF00F9344, 0x8708A3D2, 0x1E01F268, 0x6906C2FE, 0xF762575D, 0x806567CB, 0x196C3671, 0x6E6B06E7,
  0xFED41B76, 0x89D32BE0, 0x10DA7A5A, 0x67DD4ACC, 0xF9B9DF6F, 0x8EBEEFF9, 0x17B7BE43, 0x60B08ED5,
  0xD6D6A3E8, 0xA1D1937E, 0x38D8C2C4, 0x4FDFF252, 0xD1BB67F1, 0xA6BC5767, 0x3FB506DD, 0x48B2364B,
  0xD80D2BDA, 0xAF0A1B4C, 0x36034AF6, 0x41047A60, 0xDF60EFC3, 0xA867DF55, 0x316E8EEF, 0x4669BE79,
  0xCB61B38C, 0xBC66831A, 0x256FD2A0, 0x5268E236, 0xCC0C7795, 0xBB0B4703, 0x220216B9, 0x5505262F,
  0xC5BA3BBE, 0xB2BD0B28, 0x2BB45A92, 0x5CB36A04, 0xC2D7FFA7, 0xB5D0CF31, 0x2CD99E8B, 0x5BDEAE1D,
  0x9B64C2B0, 0xEC63F226, 0x756AA39C, 0x026D930A, 0x9C0906A9, 0xEB0E363F, 0x72076785, 0x05005713,
  0x95BF4A82, 0xE2B87A14, 0x7BB12BAE, 0x0CB61B38, 0x92D28E9B, 0xE5D5BE0D, 0x7CDCEFB7, 0x0BDBDF21,
  0x86D3D2D4, 0xF1D4E242, 0x68DDB3F8, 0x1FDA836E, 0x81BE16CD, 0xF6B9265B, 0x6FB077E1, 0x18B74777,
  0x88085AE6, 0xFF0F6A70, 0x66063BCA, 0x11010B5C, 0x8F659EFF, 0xF862AE69, 0x616BFFD3, 0x166CCF45,
  0xA00AE278, 0xD70DD2EE, 0x4E048354, 0x3903B3C2, 0xA7672661, 0xD06016F7, 0x4969474D, 0x3E6E77DB,
  0xAED16A4A, 0xD9D65ADC, 0x40DF0B66, 0x37D83BF0, 0xA9BCAE53, 0xDEBB9EC5, 0x47B2CF7F, 0x30B5FFE9,
  0xBDBDF21C, 0xCABAC28A, 0x53B39330, 0x24B4A3A6, 0xBAD03605, 0xCDD70693, 0x54DE5729, 0x23D967BF,
  0xB3667A2E, 0xC4614AB8, 0x5D681B02, 0x2A6F2B94, 0xB40BBE37, 0xC30C8EA1, 0x5A05DF1B, 0x2D02EF8D]

/-- `char.upper()` restricted to ASCII letters (the keys the tool hashes). -/
def asciiUpper (c : Nat) : Nat := if 97 ≤ c ∧ c ≤ 122 then c - 32 else c

/-- `gta_sa_hash` (SAGXT.py:42-52): case-folded JAMCRC, seed `0xFFFFFFFF`,
no final complement. -/
def gta_sa_hash (key : List Nat) : Nat :=
  key.foldl
    (fun hv ch =>
      CRC32_TABLE.getD ((hv ^^^ (asciiUpper ch &&& 0xFF)) &&& 0xFF) 0 ^^^ (hv >>> 8))
    0xFFFFFFFF

/-- One character of `^[0-9A-Fa-f]{1,8}$`. -/
def isHexDigit (c : Nat) : Bool :=
  (decide (48 ≤ c) && decide (c ≤ 57)) || (decide (65 ≤ c) && decide (c ≤ 70)) ||
    (decide (97 ≤ c) && decide (c ≤ 102))

/-- The `hex_check` regex of SAGXT.py:66. -/
def isHexKey (k : List Nat) : Bool :=
  decide (1 ≤ k.length) && decide (k.length ≤ 8) && k.all isHexDigit

def hexDigitVal (c : Nat) : Nat :=
  if c ≤ 57 then c - 48 else if c ≤ 70 then c - 55 else c - 87

/-- `int(raw_key, 16)` on a string the `hex_check` regex accepted. -/
def hexValue (k : List Nat) : Nat := k.foldl (fun a c => a * 16 + hexDigitVal c) 0

/-- The key-hash heuristic of `load_text` (SAGXT.py:116-127): a key that looks
like hexadecimal is taken as a literal hash id, anything else is hashed. -/
def keyHash (k : List Nat) : Nat :=
  if isHexKey k then hexValue k else gta_sa_hash k

/-- `hash_key in current_table` / `current_table[hash_key]`: lookup in an
insertion-ordered table. -/
def dictLookup (tbl : List (Nat × List Nat)) (k : Nat) : Option (List Nat) :=
  (tbl.find? (fun p => p.1 == k)).map Prod.snd

/-- `current_table[hash_key] = text_value`: dict assignment — replace in
place when the key exists, append otherwise. -/
def dictSet (tbl : List (Nat × List Nat)) (k : Nat) (v : List Nat) :
    List (Nat × List Nat) :=
  if (tbl.find? (fun p => p.1 == k)).isSome then
    tbl.map (fun p => if p.1 == k then (k, v) else p)
  else tbl ++ [(k, v)]

/-- Lines 129-142 of `load_text`: resolve the key, warn when the hash is
already present with a different text, then assign unconditionally. Returns
the updated table and whether the collision warning was printed. -/
def insertEntry (tbl : List (Nat × List Nat)) (rawKey v : List Nat) :
    List (Nat × List Nat) × Bool :=
  match dictLookup tbl (keyHash rawKey) with
  | some old => (dictSet tbl (keyHash rawKey) v, old != v)
  | none => (dictSet tbl (keyHash rawKey) v, false)

/-- The entry loop of `load_text` over one table: fold the parsed
`(raw key, text)` lines into a table, counting collision warnings. -/
def loadTableEntries (entries : List (List Nat × List Nat)) :
    List (Nat × List Nat) × Nat :=
  entries.foldl
    (fun st e =>
      ((insertEntry st.1 e.1 e.2).1, st.2 + if (insertEntry st.1 e.1 e.2).2 then 1 else 0))
    ([], 0)

/-- `sorted(entries.items())` of `save_as_gxt` (SAGXT.py:201): the table's
entries in ascending hash order (hashes are dict keys, hence distinct, so the
tuple order is the key order; insertion sort is a faithful stable model). -/
def sortedEntries (entries : List (Nat × List Nat)) : List (Nat × List Nat) :=
  List.insertionSort (fun a b => a.1 ≤ b.1) entries

/-- `save_as_gxt` lines 199-215: emit one `(data_offset, hash)` TKEY record
per entry in sorted order, the TDAT cursor advancing past each text and its
null terminator. -/
def tkeyRecords (entries : List (Nat × List Nat)) : List (Nat × Nat) :=
  ((sortedEntries entries).foldl
    (fun (st : List (Nat × Nat) × Nat) e =>
      (st.1 ++ [(st.2, e.1)], st.2 + (e.2.length + 1)))
    ([], 0)).1

/-! ### Translation database codec
(`GenerateDataBase` GTA4_WHM_Text_Extractor.py:464-519, `ParseWhmTable` :521-599)

`GenerateDataBase` serializes `(hash, bytes)` entries; `ParseWhmTable` reads
them back (the source finally decodes each byte string to text — the codec is
modelled at the byte level). -/

/-- `struct.pack("<I", n)`: the four little-endian bytes of `n`. -/
def u32le (n : Nat) : List Nat :=
  [n % 256, n / 256 % 256, n / 65536 % 256, n / 16777216 % 256]

/-- `struct.pack("<I", n)` raises `struct.error` when the value does not fit
in 32 bits. -/
def pack32 (n : Nat) : Option (List Nat) :=
  if n < 2 ^ 32 then some (u32le n) else none

/-- The blob-building loop of `GenerateDataBase` (lines 480-499): each text's
offset is the blob length before it is appended, followed by a null. -/
def buildWhmData (texts : List (Nat × List Nat)) :
    List (Nat × Nat) × List Nat :=
  texts.foldl
    (fun st e => (st.1 ++ [(e.1, st.2.length)], st.2 ++ e.2 ++ [0]))
    ([], [])

/-- The entry-table writes of lines 507-508: `struct.pack("<II", hash, offset)`
per entry. -/
def packEntries : List (Nat × Nat) → Option (List Nat)
  | [] => some []
  | e :: rest =>
    match pack32 e.1, pack32 e.2, packEntries rest with
    | some a, some b, some r => some (a ++ (b ++ r))
    | _, _, _ => none

/-- `GenerateDataBase` (lines 501-514): u32 entry count, the hash/offset
pairs, u32 blob size, then the blob. -/
def GenerateDataBase (texts : List (Nat × List Nat)) : Option (List Nat) :=
  match pack32 texts.length, packEntries (buildWhmData texts).1,
      pack32 (buildWhmData texts).2.length with
  | some cnt, some pairs, some size =>
      some (cnt ++ (pairs ++ (size ++ (buildWhmData texts).2)))
  | _, _, _ => none

/-- A decoded table value: a located byte string, or the source's
"[binary data]" sentinel for an out-of-range offset. -/
inductive WhmText where
  | text (bs : List Nat)
  | binMarker

/-- `struct.unpack_from("<I", ...)` at the stream head; `none` models the
truncation checks of `ParseWhmTable` (fewer than four bytes remain). -/
def readU32 : List Nat → Option (Nat × List Nat)
  | b0 :: b1 :: b2 :: b3 :: rest => some (b0 + 256 * (b1 + 256 * (b2 + 256 * b3)), rest)
  | _ => none

/-- The entry-table loop of `ParseWhmTable` (lines 538-547). -/
def readEntries : Nat → List Nat → Option (List (Nat × Nat) × List Nat)
  | 0, d => some ([], d)
  | n + 1, d =>
    match readU32 d with
    | none => none
    | some hv =>
      match readU32 hv.2 with
      | none => none
      | some off =>
        match readEntries n off.2 with
        | none => none
        | some es => some ((hv.1, off.1) :: es.1, es.2)

/-- Lines 564-580 of `ParseWhmTable`: an in-range offset scans the blob up to
the next null (or the blob end); an out-of-range offset yields the
"[binary data]" sentinel. -/
def whmEntryText (blob : List Nat) (off : Nat) : WhmText :=
  if off < blob.length then .text ((blob.drop off).takeWhile (fun b => b != 0))
  else .binMarker

/-- `ParseWhmTable` (lines 521-580) on the raw file bytes: read the count,
the entry table and the blob size; clamp the blob to the remaining data
(lines 558-560, rendered by `take`); resolve every entry. -/
def ParseWhmTable (d : List Nat) : Option (List (Nat × WhmText)) :=
  match readU32 d with
  | none => none
  | some cnt =>
    match readEntries cnt.1 cnt.2 with
    | none => none
    | some entries =>
      match readU32 entries.2 with
      | none => none
      | some size =>
        some (entries.1.map (fun e => (e.1, whmEntryText (size.2.take size.1) e.2)))

/-- Specification of `buildWhmData`'s entry table by recursion: offsets are
the running sums of text lengths plus their null terminators. -/
def whmOffsets : List (Nat × List Nat) → Nat → List (Nat × Nat)
  | [], _ => []
  | e :: rest, base => (e.1, base) :: whmOffsets rest (base + (e.2.length + 1))

/-- Specification of `buildWhmData`'s blob by recursion. -/
def whmBlob : List (Nat × List Nat) → List Nat
  | [] => []
  | e :: rest => e.2 ++ ([0] ++ whmBlob rest)

end GTAText

namespace GTAText

/-! ## Helper lemmas about the dot scan -/

theorem findDotAux_add (bs : List Nat) (i : Nat) :
    findDotAux bs (i + 1) = (findDotAux bs i).map (fun j => j + 1) := by
  induction bs generalizing i with
  | nil => rfl
  | cons b bs ih =>
    by_cases hb : b = 46 <;> simp [findDotAux, hb, ih]

theorem findDotAux_isSome (bs : List Nat) (i : Nat) :
    (findDotAux bs i).isSome = bs.any (· == 46) := by
  induction bs generalizing i with
  | nil => rfl
  | cons b bs ih =>
    by_cases hb : b = 46 <;> simp [findDotAux, hb, ih]

theorem findDotAux_lt (bs : List Nat) (j : Nat) (h : findDotAux bs 0 = some j) :
    j < bs.length := by
  induction bs generalizing j with
  | nil => simp [findDotAux] at h
  | cons b bs ih =>
    by_cases hb : b = 46
    · simp [findDotAux, hb] at h
      simp only [List.length_cons]
      omega
    · rw [show findDotAux (b :: bs) 0 = findDotAux bs 1 by simp [findDotAux, hb],
        show (1 : Nat) = 0 + 1 by rfl, findDotAux_add] at h
      rcases Option.map_eq_some'.mp h with ⟨j', hj', rfl⟩
      have := ih j' hj'
      simp
      omega

theorem findDot_ne_zero (v : List Nat) (f : Nat) (hf : findDot v = some f) :
    (f ≠ 0) ↔ v.head? ≠ some 46 := by
  cases v with
  | nil => simp [findDot, findDotAux] at hf
  | cons b bs =>
    by_cases hb : b = 46
    · subst hb
      simp [findDot, findDotAux] at hf
      simp [← hf]
    · rw [show findDot (b :: bs) = findDotAux bs 1 by simp [findDot, findDotAux, hb],
        show (1 : Nat) = 0 + 1 by rfl, findDotAux_add] at hf
      rcases Option.map_eq_some'.mp hf with ⟨j', _, rfl⟩
      simp [hb]

/-- The source's URL test, re-expressed positionally: all URL characters, a
dot exists, and neither the first nor the last byte is a dot. -/
theorem validate_url_eq (v : List Nat) :
    validate_url v =
      (v.all validate_url_char && v.any (· == 46) &&
        v.head? != some 46 && v.getLast? != some 46) := by
  rcases v with _ | ⟨b, bs⟩
  · simp [validate_url]
  set v := b :: bs with hv
  have hvne : v.isEmpty = false := by simp [hv]
  by_cases hall : v.all validate_url_char
  · by_cases hany : v.any (· == 46)
    · have hfs : (findDot v).isSome = true := by
        rw [findDot, findDotAux_isSome, hany]
      rcases Option.isSome_iff_exists.mp hfs with ⟨f, hf⟩
      have hrs : (findDotAux v.reverse 0).isSome = true := by
        rw [findDotAux_isSome, List.any_reverse, hany]
      rcases Option.isSome_iff_exists.mp hrs with ⟨i, hi⟩
      have hrf : rfindDot v = some (v.length - 1 - i) := by
        rw [rfindDot, hi, Option.map_some']
      have hil : i < v.length := by
        have := findDotAux_lt v.reverse i hi
        simpa using this
      have hlen : 1 ≤ v.length := by simp [hv]
      have hhead : (f ≠ 0) ↔ v.head? ≠ some 46 := findDot_ne_zero v f hf
      have hlast : (v.length - 1 - i ≠ v.length - 1) ↔ v.getLast? ≠ some 46 := by
        have h0 : (i ≠ 0) ↔ v.reverse.head? ≠ some 46 := by
          have := findDot_ne_zero v.reverse i (by rw [findDot]; exact hi)
          simpa using this
        rw [List.head?_reverse] at h0
        constructor
        · intro h
          exact h0.mp (by omega)
        · intro h
          have := h0.mpr h
          omega
      rw [validate_url]
      rw [if_neg (by simp [hvne]), if_neg (by simp [hall]), hf, hrf]
      rw [Bool.eq_iff_iff]
      simp only [Bool.and_eq_true, bne_iff_ne, ne_eq, hall, hany, true_and]
      constructor
      · rintro ⟨h1, h2⟩
        exact ⟨hhead.mp (by simpa using h1), hlast.mp (by simpa using h2)⟩
      · rintro ⟨h1, h2⟩
        exact ⟨by simpa using hhead.mpr h1, by simpa using hlast.mpr h2⟩
    · have hfn : findDot v = none := by
        have := findDotAux_isSome v 0
        rw [findDot]
        rcases h : findDotAux v 0 with _ | j
        · rfl
        · rw [h] at this
          simp [hany] at this
      rw [validate_url]
      rw [if_neg (by simp [hvne]), if_neg (by simp [hall]), hfn]
      simp [hany]
  · rw [validate_url]
    rw [if_neg (by simp [hvne]), if_pos (by simpa using hall)]
    simp [hall]

/-! ## Helper lemmas about dict assignment and the TKEY fold -/

theorem dictLookup_dictSet (tbl : List (Nat × List Nat)) (k : Nat) (v : List Nat) :
    dictLookup (dictSet tbl k v) k = some v := by
  induction tbl with
  | nil => simp [dictLookup, dictSet]
  | cons p tbl ih =>
    by_cases hp : p.1 = k
    · have hfind : List.find? (fun q => q.1 == k) (p :: tbl) = some p :=
        List.find?_cons_of_pos _ (by simp [hp])
      rw [dictSet, if_pos (by rw [hfind]; rfl), List.map_cons]
      have hhead : (if (p.1 == k) = true then (k, v) else p) = (k, v) := by simp [hp]
      rw [hhead, dictLookup, List.find?_cons_of_pos _ (by simp)]
      rfl
    · have hskip : ∀ l, List.find? (fun q => q.1 == k) (p :: l)
          = List.find? (fun q => q.1 == k) l :=
        fun l => List.find?_cons_of_neg _ (by simp [hp])
      rw [dictSet]
      by_cases hs : (List.find? (fun q => q.1 == k) (p :: tbl)).isSome
      · rw [if_pos hs]
        have hs' : (List.find? (fun q => q.1 == k) tbl).isSome := by
          rwa [hskip] at hs
        rw [List.map_cons]
        have hhead : (if (p.1 == k) = true then (k, v) else p) = p := by simp [hp]
        rw [hhead, dictLookup, hskip]
        have h2 := ih
        rw [dictSet, if_pos hs'] at h2
        exact h2
      · rw [if_neg hs]
        have hs' : ¬ (List.find? (fun q => q.1 == k) tbl).isSome := by
          rwa [hskip] at hs
        rw [List.cons_append, dictLookup, hskip]
        have h2 := ih
        rw [dictSet, if_neg hs'] at h2
        exact h2

theorem tkeyFold_snd (l : List (Nat × List Nat)) (acc : List (Nat × Nat)) (off : Nat) :
    ((l.foldl (fun (st : List (Nat × Nat) × Nat) e =>
        (st.1 ++ [(st.2, e.1)], st.2 + (e.2.length + 1))) (acc, off)).1).map Prod.snd
      = acc.map Prod.snd ++ l.map Prod.fst := by
  induction l generalizing acc off with
  | nil => simp
  | cons e l ih => simp [List.foldl_cons, ih]

instance : IsTotal (Nat × List Nat) (fun a b => a.1 ≤ b.1) :=
  ⟨fun a b => Nat.le_total a.1 b.1⟩

instance : IsTrans (Nat × List Nat) (fun a b => a.1 ≤ b.1) :=
  ⟨fun _ _ _ hab hbc => le_trans hab hbc⟩

/-! ## Helper lemmas for the translation-database round trip -/

theorem readU32_u32le (n : Nat) (rest : List Nat) (hn : n < 2 ^ 32) :
    readU32 (u32le n ++ rest) = some (n, rest) := by
  have hval : n % 256 + 256 * (n / 256 % 256 + 256 * (n / 65536 % 256
      + 256 * (n / 16777216 % 256))) = n := by
    omega
  simp only [u32le, List.cons_append, List.nil_append, readU32, hval]

theorem pack32_some (n : Nat) (a : List Nat) (h : pack32 n = some a) :
    n < 2 ^ 32 ∧ a = u32le n := by
  rw [pack32] at h
  split at h
  · next hlt =>
    simp only [Option.some.injEq] at h
    exact ⟨hlt, h.symm⟩
  · simp at h

theorem readEntries_packEntries (tbl : List (Nat × Nat)) :
    ∀ bs rest, packEntries tbl = some bs →
      readEntries tbl.length (bs ++ rest) = some (tbl, rest) := by
  induction tbl with
  | nil =>
    intro bs rest h
    simp only [packEntries, Option.some.injEq] at h
    subst h
    simp [readEntries]
  | cons e tbl ih =>
    intro bs rest h
    rcases h1 : pack32 e.1 with _ | a
    · simp only [packEntries, h1] at h
      exact Option.noConfusion h
    rcases h2 : pack32 e.2 with _ | b
    · simp only [packEntries, h1, h2] at h
      exact Option.noConfusion h
    rcases h3 : packEntries tbl with _ | r
    · simp only [packEntries, h1, h2, h3] at h
      exact Option.noConfusion h
    simp only [packEntries, h1, h2, h3, Option.some.injEq] at h
    subst h
    obtain ⟨he1, ha⟩ := pack32_some _ _ h1
    obtain ⟨he2, hb⟩ := pack32_some _ _ h2
    subst ha hb
    have hassoc : (u32le e.1 ++ (u32le e.2 ++ r)) ++ rest
        = u32le e.1 ++ (u32le e.2 ++ (r ++ rest)) := by
      simp [List.append_assoc]
    simp only [List.length_cons, readEntries, hassoc, readU32_u32le e.1 _ he1,
      readU32_u32le e.2 _ he2, ih r rest h3]

theorem buildWhmData_eq (texts : List (Nat × List Nat)) :
    ∀ (acc : List (Nat × Nat)) (blob : List Nat),
      texts.foldl (fun st e => (st.1 ++ [(e.1, st.2.length)], st.2 ++ e.2 ++ [0]))
          (acc, blob)
        = (acc ++ whmOffsets texts blob.length, blob ++ whmBlob texts) := by
  induction texts with
  | nil =>
    intro acc blob
    simp [whmOffsets, whmBlob]
  | cons e rest ih =>
    intro acc blob
    simp only [List.foldl_cons]
    rw [ih]
    simp [whmOffsets, whmBlob, List.append_assoc, List.length_append]

theorem buildWhmData_spec (texts : List (Nat × List Nat)) :
    buildWhmData texts = (whmOffsets texts 0, whmBlob texts) := by
  rw [buildWhmData, buildWhmData_eq]
  simp

theorem whmOffsets_length (texts : List (Nat × List Nat)) :
    ∀ base, (whmOffsets texts base).length = texts.length := by
  induction texts with
  | nil => intro base; simp [whmOffsets]
  | cons e rest ih => intro base; simp [whmOffsets, ih]

theorem takeWhile_append_null (s post : List Nat) (hs : ∀ b ∈ s, b ≠ 0) :
    (s ++ 0 :: post).takeWhile (fun b => b != 0) = s := by
  induction s with
  | nil => simp
  | cons b bs ih =>
    have hb : b ≠ 0 := hs b (by simp)
    have ih2 := ih (fun x hx => hs x (by simp [hx]))
    simp [List.takeWhile_cons, hb, ih2]

theorem whmEntryText_at (pre s post : List Nat) (hs : ∀ b ∈ s, b ≠ 0) :
    whmEntryText (pre ++ (s ++ (0 :: post))) pre.length = .text s := by
  have hlt : pre.length < (pre ++ (s ++ (0 :: post))).length := by
    simp
  rw [whmEntryText, if_pos hlt, List.drop_left, takeWhile_append_null s post hs]

theorem whm_resolve_all (texts : List (Nat × List Nat)) :
    ∀ pre, (∀ p ∈ texts, ∀ b ∈ p.2, b ≠ 0) →
      (whmOffsets texts pre.length).map
          (fun e => (e.1, whmEntryText (pre ++ whmBlob texts) e.2))
        = texts.map (fun p => (p.1, WhmText.text p.2)) := by
  induction texts with
  | nil =>
    intro pre h
    simp [whmOffsets, whmBlob]
  | cons e rest ih =>
    intro pre h
    simp only [whmOffsets, whmBlob, List.map_cons, List.singleton_append]
    have hhead : whmEntryText (pre ++ (e.2 ++ (0 :: whmBlob rest))) pre.length
        = .text e.2 :=
      whmEntryText_at pre e.2 (whmBlob rest) (h e (by simp))
    rw [hhead]
    have htail := ih (pre ++ (e.2 ++ [0])) (fun p hp => h p (List.mem_cons_of_mem e hp))
    have hpre : (pre ++ (e.2 ++ [0])).length = pre.length + (e.2.length + 1) := by
      simp
    have hblob : (pre ++ (e.2 ++ [0])) ++ whmBlob rest
        = pre ++ (e.2 ++ (0 :: whmBlob rest)) := by
      simp [List.append_assoc]
    rw [hpre, hblob] at htail
    rw [htail]

/-! ## Theorems -/

/-- **C1** Ledger merge rule: a parsed ledger line `(H, T)` with `T` encodable
to windows-1252 is accepted into the rebuilt table iff `T` is non-blank (not
every character a space or tab) and the FNV-1a/32 hash of the encoded bytes
differs from `H`; with `H = fnv1a_32 "Hi"`, the unchanged line `0xH=Hi` is
excluded and `0xH=Bonjour` is included. -/
theorem loadText_merge_rule :
    (∀ es hv t bs, encodeW1252 t = some bs →
      ((hv, t) ∈ LoadText es ↔ (hv, t) ∈ es ∧ IsBlankText t = false ∧ hv ≠ fnv1a_32 bs))
    ∧ LoadText [(fnv1a_32 [72, 105], [72, 105])] = []
    ∧ LoadText [(fnv1a_32 [72, 105], [66, 111, 110, 106, 111, 117, 114])]
        = [(fnv1a_32 [72, 105], [66, 111, 110, 106, 111, 117, 114])] := by
  refine ⟨?_, by decide, by decide⟩
  intro es hv t bs henc
  simp only [LoadText, List.mem_filter, acceptEntry, loadTextBytes, henc, Option.getD_some,
    Bool.and_eq_true, Bool.not_eq_true', bne_iff_ne, ne_eq]

/-- Witness for C1 at a concrete input. -/
theorem loadText_merge_rule_witness :
    encodeW1252 [72, 105] = some [72, 105] ∧
    ((5, [72, 105]) ∈ LoadText [(5, ([72, 105] : List Nat))] ↔
      (5, [72, 105]) ∈ [(5, ([72, 105] : List Nat))] ∧ IsBlankText [72, 105] = false ∧
        5 ≠ fnv1a_32 [72, 105]) :=
  ⟨by decide, loadText_merge_rule.1 [(5, [72, 105])] 5 [72, 105] [72, 105] (by decide)⟩

/-- **C10** When a parsed translation cannot be encoded in windows-1252,
`LoadText` hashes the empty byte string (`fnv1a_32 [] = 0x811C9DC5`), so the
entry is accepted iff it is non-blank and its key hash differs from
`0x811C9DC5`; the failure is caught inside `LoadText`, never raised. -/
theorem loadText_encoding_failure :
    fnv1a_32 [] = 0x811C9DC5
    ∧ (∀ es hv t, encodeW1252 t = none →
      ((hv, t) ∈ LoadText es ↔ (hv, t) ∈ es ∧ IsBlankText t = false ∧ hv ≠ 0x811C9DC5)) := by
  refine ⟨by decide, ?_⟩
  intro es hv t henc
  have hb : loadTextBytes t = [] := by simp [loadTextBytes, henc]
  simp only [LoadText, List.mem_filter, acceptEntry, hb, Bool.and_eq_true, Bool.not_eq_true',
    bne_iff_ne, ne_eq]
  have h0 : fnv1a_32 [] = 0x811C9DC5 := by decide
  rw [h0]

/-- Witness for C10 at a concrete input (`0x4E2D` is not windows-1252
encodable). -/
theorem loadText_encoding_failure_witness :
    encodeW1252 [0x4E2D] = none ∧
    ((1, [0x4E2D]) ∈ LoadText [(1, ([0x4E2D] : List Nat))] ↔
      (1, [0x4E2D]) ∈ [(1, ([0x4E2D] : List Nat))] ∧ IsBlankText [0x4E2D] = false ∧
        1 ≠ 0x811C9DC5) :=
  ⟨by decide, loadText_encoding_failure.2 [(1, [0x4E2D])] 1 [0x4E2D] (by decide)⟩

/-- **C2** TaggedRef dereference safety: the tag is the top 4 bits and the
offset the low 28 bits of the 32-bit value (so `0x5000000A` has tag 5 and
offset `0xA`); `locate` returns `none` whenever the tag is not 5 — in
particular for tag 6 — or the offset is at or beyond the arena length; as a
total Lean function it never panics. -/
theorem pgPtr_locate_safety :
    (∀ v, v < 2 ^ 32 → ptrTag v = v / 2 ^ 28 ∧ ptrOffset v = v % 2 ^ 28)
    ∧ ptrTag 0x5000000A = 5 ∧ ptrOffset 0x5000000A = 0xA
    ∧ (∀ block v, ptrTag v ≠ 5 ∨ block.length ≤ ptrOffset v → locateChar block v = none)
    ∧ (∀ block v, ptrTag v = 6 → locateChar block v = none) := by
  refine ⟨?_, by decide, by decide, ?_, ?_⟩
  · intro v hv
    have hmask : ptrOffset v = v % 2 ^ 28 := by
      simpa [ptrOffset] using Nat.and_pow_two_sub_one_eq_mod v 28
    have h1 : ptrTag v = v / 2 ^ 28 % 2 ^ 4 := by
      have h2 := Nat.and_pow_two_sub_one_eq_mod (v >>> 28) 4
      simpa [ptrTag, Nat.shiftRight_eq_div_pow] using h2
    have hlt : v / 2 ^ 28 < 2 ^ 4 := by omega
    exact ⟨by rw [h1, Nat.mod_eq_of_lt hlt], hmask⟩
  · intro block v h
    rcases h with h | h
    · simp [locateChar, h]
    · by_cases hb : block.isEmpty <;> simp [locateChar, hb, h, Nat.not_lt.mpr h]
  · intro block v h
    have : ptrTag v ≠ 5 := by omega
    simp [locateChar, this]

/-- Witness for C2 at concrete inputs. -/
theorem pgPtr_locate_safety_witness :
    (ptrTag 0x5000000A = 0x5000000A / 2 ^ 28 ∧ ptrOffset 0x5000000A = 0x5000000A % 2 ^ 28)
    ∧ locateChar [7, 0] 0x60000001 = none
    ∧ locateChar [7, 0] 0x50000002 = none :=
  ⟨pgPtr_locate_safety.1 0x5000000A (by decide),
    pgPtr_locate_safety.2.2.2.2 [7, 0] 0x60000001 (by decide),
    pgPtr_locate_safety.2.2.2.1 [7, 0] 0x50000002 (Or.inr (by decide))⟩

/-- **C9** Resource size formula: page size is `1 <<< (exponent + 8)` and each
region size is page size times the 1/2/4/8-weighted flags plus 16 times the
7-bit count; for the packed flags value 1 (`virtual1xPageFlag = 1`, exponent
0, everything else 0) the virtual size is 256, the physical size 0, and the
expected decompressed size 256. -/
theorem rsc_flag_size_formula :
    (∀ v,
      GetVirtualSize v =
        (1 <<< (virtual1xPageSize v + 8)) *
          (1 * virtual1xPageFlag v + 2 * virtual2xPageFlag v + 4 * virtual4xPageFlag v +
            8 * virtual8xPageFlag v + 16 * virtual16xPageCount v)
      ∧ GetPhysicalSize v =
        (1 <<< (physical1xPageSize v + 8)) *
          (1 * physical1xPageFlag v + 2 * physical2xPageFlag v + 4 * physical4xPageFlag v +
            8 * physical8xPageFlag v + 16 * physical16xPageCount v))
    ∧ GetVirtualSize 1 = 256 ∧ GetPhysicalSize 1 = 0 ∧ uncompressedSize 1 = 256 := by
  refine ⟨fun v => ⟨?_, ?_⟩, by decide, by decide, by decide⟩
  · unfold GetVirtualSize GetVirtualPageSize; ring
  · unfold GetPhysicalSize GetPhysicalPageSize; ring

/-- **C4** [counterexample] The claim's acceptance rule fails on `"a.b."`
(bytes `[97, 46, 98, 46]`): the code accepts it (its last dot is the final
byte, so `validate_url` says "not a URL"), while the claim's URL notion —
"contains a dot that is neither the first nor the last character" — holds of
the inner dot, so the claim says it must be rejected. -/
theorem validate_string_claim_counterexample :
    validate_string [97, 46, 98, 46] = true
    ∧ ([97, 46, 98, 46].any validate_efigs_char
        && !(specURL [97, 46, 98, 46])) = false := by
  decide

/-- **C4** [amended] A candidate string is accepted iff it contains an EFIGS
byte and it is not the case that every byte is a URL character, a dot exists,
and neither the first byte nor the last byte is a dot; `"www.rock.com"` and
`"12345"` are rejected while `"Hello"` and `"Café"` are accepted. -/
theorem validate_string_acceptance :
    (∀ v, validate_string v =
      (v.any validate_efigs_char &&
        !(v.all validate_url_char && v.any (· == 46) &&
          v.head? != some 46 && v.getLast? != some 46)))
    ∧ validate_string [119, 119, 119, 46, 114, 111, 99, 107, 46, 99, 111, 109] = false
    ∧ validate_string [49, 50, 51, 52, 53] = false
    ∧ validate_string [72, 101, 108, 108, 111] = true
    ∧ validate_string [67, 97, 102, 233] = true := by
  refine ⟨?_, by decide, by decide, by decide, by decide⟩
  intro v
  simp only [validate_string, validate_url_eq]

/-- **C7** [counterexample] With arena length 2, offset 0, declared count 4,
declared capacity 2 and element size 1, the nominal count `max 4 2 = 4`
overruns, and `min 4 2 = 2` elements would fit — yet the code clamps to the
declared count `4`, still overruns, and reads nothing (with a diagnostic),
contradicting "clamped to the smaller of the two so the read stays within
bounds". -/
theorem get_span_claim_counterexample :
    2 < ptrOffset 0x50000000 + max 4 2 * 1
    ∧ ptrOffset 0x50000000 + min 4 2 * 1 ≤ 2
    ∧ get_span 2 0x50000000 4 2 1 = ([], true)
    ∧ (get_span 2 0x50000000 4 2 1).1.length ≠ min 4 2 := by
  decide

/-- **C7** [amended] The nominal element count is `max count size`; if reading
that many would overrun the arena, the count is re-tried as the declared
`count`; if that still overruns, the span is empty and a diagnostic fires.
Every offset in a returned span stays within the arena. -/
theorem get_span_clamping :
    (∀ blockLen ptrVal count size esz,
      0 < blockLen → ptrTag ptrVal = 5 →
        (ptrOffset ptrVal + max count size * esz ≤ blockLen →
          get_span blockLen ptrVal count size esz
            = ((List.range (max count size)).map (fun i => ptrOffset ptrVal + i * esz), false))
        ∧ (blockLen < ptrOffset ptrVal + max count size * esz →
            ptrOffset ptrVal + count * esz ≤ blockLen →
          get_span blockLen ptrVal count size esz
            = ((List.range count).map (fun i => ptrOffset ptrVal + i * esz), false))
        ∧ (blockLen < ptrOffset ptrVal + count * esz →
          get_span blockLen ptrVal count size esz = ([], true)))
    ∧ (∀ blockLen ptrVal count size esz o,
        o ∈ (get_span blockLen ptrVal count size esz).1 → o + esz ≤ blockLen) := by
  constructor
  · intro blockLen ptrVal count size esz hpos htag
    have hcond : ¬(blockLen = 0 ∨ ptrTag ptrVal ≠ 5) := by
      push_neg
      exact ⟨by omega, htag⟩
    refine ⟨fun hfit => ?_, fun hover hcnt => ?_, fun hcover => ?_⟩
    · rw [get_span, if_neg hcond, if_neg (by omega)]
    · rw [get_span, if_neg hcond, if_pos hover, if_neg (by omega)]
    · have hmax : count ≤ max count size := Nat.le_max_left count size
      have hover : blockLen < ptrOffset ptrVal + max count size * esz := by
        have := Nat.mul_le_mul_right esz hmax
        omega
      rw [get_span, if_neg hcond, if_pos hover, if_pos hcover]
  · intro blockLen ptrVal count size esz o ho
    rw [get_span] at ho
    split at ho
    · simp at ho
    · split at ho
      · split at ho
        · simp at ho
        · rename_i hcond hover hcnt
          simp only [List.mem_map, List.mem_range] at ho
          obtain ⟨i, hi, rfl⟩ := ho
          have h1 : (i + 1) * esz ≤ count * esz := Nat.mul_le_mul_right esz (by omega)
          have h2 : ptrOffset ptrVal + i * esz + esz
              = ptrOffset ptrVal + (i + 1) * esz := by ring
          omega
      · rename_i hcond hfit
        simp only [List.mem_map, List.mem_range] at ho
        obtain ⟨i, hi, rfl⟩ := ho
        have h1 : (i + 1) * esz ≤ max count size * esz :=
          Nat.mul_le_mul_right esz (by omega)
        have h2 : ptrOffset ptrVal + i * esz + esz
            = ptrOffset ptrVal + (i + 1) * esz := by ring
        omega

/-- Witness for C7's amended theorem at concrete inputs. -/
theorem get_span_clamping_witness :
    get_span 10 0x50000002 2 3 2
      = ((List.range (max 2 3)).map (fun i => ptrOffset 0x50000002 + i * 2), false)
    ∧ (6 : Nat) + 2 ≤ 10 :=
  ⟨(get_span_clamping.1 10 0x50000002 2 3 2 (by decide) (by decide)).1 (by decide),
    get_span_clamping.2 10 0x50000002 2 3 2 6 (by decide)⟩

/-- **C6** [counterexample] A node of unknown kind 7 with a data-node child
holding `"Hello"`: the walk recurses into the children *before* inspecting
the node's own kind, so the child's string is still emitted (and one
diagnostic is printed) — the claim's "no strings from that node or any of its
descendants are emitted" fails. -/
theorem extractNode_unknown_counterexample :
    (HNode.mk 7 [.mk 1 [] (some [72, 101, 108, 108, 111])] none).kind = 7
    ∧ ExtractNodeStrings (([], []), 0)
        (.mk 7 [.mk 1 [] (some [72, 101, 108, 108, 111])] none)
      = (([(0xF55C314B, [72, 101, 108, 108, 111])], [0xF55C314B]), 1) := by
  decide

/-- **C6** [amended] A node whose stored kind is not one of the four known
variants contributes no string of its own — its `data`, if any, is ignored —
and one unknown-node-kind diagnostic is printed; its children, already
traversed before the kind check, keep their contributions, and the walk
continues with the following siblings rather than failing as a whole. -/
theorem extractNode_unknown_kind :
    (∀ st kind children data, kind ≠ 0 → kind ≠ 1 → kind ≠ 2 → kind ≠ 3 →
      ExtractNodeStrings st (.mk kind children data)
        = ((ExtractChildren st children).1, (ExtractChildren st children).2 + 1))
    ∧ (∀ st n rest,
        ExtractChildren st (n :: rest) = ExtractChildren (ExtractNodeStrings st n) rest) := by
  constructor
  · intro st kind children data h0 h1 h2 h3
    show (if kind = 1 then
        match data with
        | some bs => (TryAppendString (ExtractChildren st children).1 bs,
            (ExtractChildren st children).2)
        | none => ExtractChildren st children
      else if kind = 0 ∨ kind = 2 ∨ kind = 3 then ExtractChildren st children
      else ((ExtractChildren st children).1, (ExtractChildren st children).2 + 1))
      = ((ExtractChildren st children).1, (ExtractChildren st children).2 + 1)
    rw [if_neg h1, if_neg (by simp [h0, h2, h3])]
  · intro st n rest
    rfl

/-- Witness for C6's amended theorem at concrete inputs. -/
theorem extractNode_unknown_kind_witness :
    ExtractNodeStrings (([], []), 0) (.mk 9 [] (some [72, 105]))
      = ((ExtractChildren (([], []), 0) []).1, (ExtractChildren (([], []), 0) []).2 + 1)
    ∧ ExtractChildren (([], []), 0) [.mk 9 [] none]
      = ExtractChildren (ExtractNodeStrings (([], []), 0) (.mk 9 [] none)) [] :=
  ⟨extractNode_unknown_kind.1 (([], []), 0) 9 [] (some [72, 105])
      (by decide) (by decide) (by decide) (by decide),
    extractNode_unknown_kind.2 (([], []), 0) (.mk 9 [] none) []⟩

/-- **C3** [counterexample] The distinct plaintext keys `"A"` and `"a"` both
resolve to hash `0xA` (the hex heuristic); loading `A=x` then `a=y` prints
the collision warning but *overwrites* the table entry with the later value
`y` — the entry is not rejected. -/
theorem sagxt_collision_counterexample :
    keyHash [65] = keyHash [97]
    ∧ [65] ≠ [97]
    ∧ (loadTableEntries [([65], [120]), ([97], [121])]).1 = [(10, [121])]
    ∧ (loadTableEntries [([65], [120]), ([97], [121])]).2 = 1 := by
  decide

/-- **C3** [amended] When a parsed entry's key hash is already present in the
table, the collision is surfaced to the operator (the warning fires) exactly
when the stored text differs from the new one, and the later value then
overwrites the table's entry for that hash. -/
theorem sagxt_collision_handling (tbl : List (Nat × List Nat))
    (rawKey v old : List Nat) (hold : dictLookup tbl (keyHash rawKey) = some old) :
    (insertEntry tbl rawKey v).1 = dictSet tbl (keyHash rawKey) v
    ∧ dictLookup (insertEntry tbl rawKey v).1 (keyHash rawKey) = some v
    ∧ ((insertEntry tbl rawKey v).2 = true ↔ old ≠ v) := by
  refine ⟨by rw [insertEntry, hold], ?_, by rw [insertEntry, hold]; simp⟩
  rw [insertEntry, hold]
  exact dictLookup_dictSet tbl (keyHash rawKey) v

/-- Witness for C3's amended theorem at a concrete collision. -/
theorem sagxt_collision_handling_witness :
    (insertEntry [(10, [120])] [97] [121]).1 = dictSet [(10, [120])] (keyHash [97]) [121]
    ∧ dictLookup (insertEntry [(10, [120])] [97] [121]).1 (keyHash [97]) = some [121]
    ∧ ((insertEntry [(10, [120])] [97] [121]).2 = true ↔ [120] ≠ [121]) :=
  sagxt_collision_handling [(10, [120])] [97] [121] [120] (by decide)

/-- **C8** CRC-hashed version sort requirement: the hash components of the
TKEY records emitted for a table stand in strictly ascending order (table
keys are dict keys, hence pairwise distinct). -/
theorem save_tkey_sorted (entries : List (Nat × List Nat))
    (hnd : (entries.map Prod.fst).Nodup) :
    ((tkeyRecords entries).map Prod.snd).Pairwise (· < ·) := by
  have hmap : (tkeyRecords entries).map Prod.snd = (sortedEntries entries).map Prod.fst := by
    rw [tkeyRecords]
    rw [tkeyFold_snd (sortedEntries entries) [] 0]
    simp
  rw [hmap]
  have hsorted : List.Sorted (fun a b : Nat × List Nat => a.1 ≤ b.1)
      (sortedEntries entries) := List.sorted_insertionSort _ entries
  have hperm : List.Perm ((sortedEntries entries).map Prod.fst) (entries.map Prod.fst) :=
    (List.perm_insertionSort _ entries).map Prod.fst
  have hnd' : ((sortedEntries entries).map Prod.fst).Nodup := hperm.nodup_iff.mpr hnd
  have hle : ((sortedEntries entries).map Prod.fst).Pairwise (· ≤ ·) :=
    List.Pairwise.map Prod.fst (fun _ _ hab => hab) hsorted
  exact (hle.and hnd').imp (fun hab => lt_of_le_of_ne hab.1 hab.2)

/-- Witness for C8 at a concrete table. -/
theorem save_tkey_sorted_witness :
    ((tkeyRecords [(3, [97]), (1, [98]), (2, [99])]).map Prod.snd).Pairwise (· < ·) :=
  save_tkey_sorted [(3, [97]), (1, [98]), (2, [99])] (by decide)

/-- **C5** Translation-database round trip: for entries with pairwise
distinct hashes and null-free texts, a successful encode
(`GenerateDataBase`) followed by a decode (`ParseWhmTable`) recovers exactly
the original `(hash, text)` pairs, in order. -/
theorem whm_database_roundtrip (texts : List (Nat × List Nat)) (bs : List Nat)
    (_hnodup : (texts.map Prod.fst).Nodup)
    (hnull : ∀ p ∈ texts, ∀ b ∈ p.2, b ≠ 0)
    (henc : GenerateDataBase texts = some bs) :
    ParseWhmTable bs = some (texts.map (fun p => (p.1, WhmText.text p.2))) := by
  rcases h1 : pack32 texts.length with _ | cnt
  · simp only [GenerateDataBase, h1] at henc
    exact Option.noConfusion henc
  rcases h2 : packEntries (buildWhmData texts).1 with _ | pairs
  · simp only [GenerateDataBase, h1, h2] at henc
    exact Option.noConfusion henc
  rcases h3 : pack32 (buildWhmData texts).2.length with _ | size
  · simp only [GenerateDataBase, h1, h2, h3] at henc
    exact Option.noConfusion henc
  simp only [GenerateDataBase, h1, h2, h3, Option.some.injEq] at henc
  subst henc
  obtain ⟨hc1, hc2⟩ := pack32_some _ _ h1
  obtain ⟨hs1, hs2⟩ := pack32_some _ _ h3
  subst hc2 hs2
  rw [buildWhmData_spec] at h2 hs1 ⊢
  have hcount : texts.length = (whmOffsets texts 0).length :=
    (whmOffsets_length texts 0).symm
  simp only [ParseWhmTable, readU32_u32le texts.length _ hc1]
  rw [hcount]
  simp only [readEntries_packEntries _ _ _ h2]
  simp only [readU32_u32le _ _ hs1, List.take_length]
  have hres := whm_resolve_all texts [] hnull
  simp only [List.length_nil, List.nil_append] at hres
  rw [hres]

/-- Witness for C5 with two concrete entries. -/
theorem whm_database_roundtrip_witness :
    ParseWhmTable [2, 0, 0, 0, 1, 0, 0, 0, 0, 0, 0, 0, 2, 0, 0, 0, 3, 0, 0, 0,
        5, 0, 0, 0, 72, 105, 0, 66, 0]
      = some [(1, WhmText.text [72, 105]), (2, WhmText.text [66])] :=
  whm_database_roundtrip [(1, [72, 105]), (2, [66])] _
    (by decide) (by decide) (by decide)

end GTAText

